import Mathlib

/-!
Verification of the dynamic filter component system: a shallow embedding of
the filter-condition evaluation engine (`src/utils/filterUtils.ts`) and of the
table sort comparator (`DataTable`).

Modelling conventions:
* JavaScript runtime values reachable by the engine are modelled by `Value`:
  null, strings, numbers, booleans, string arrays (the only array shape in the
  data set) and keyed objects.  JavaScript numbers are modelled as rationals
  (`Rat`); `NaN`/`Infinity` do not occur among record values and the places
  where the source can produce `NaN` (`parseFloat`, `new Date`) are modelled
  with `Option` (`none` = `NaN`/Invalid Date), with the source's
  `NaN`-comparison behaviour (every comparison false) made explicit.
* `parseFloat` is modelled on its JS semantics restricted to plain decimal
  literals with optional sign and fraction, longest-prefix parsing, `none`
  when no digits are found.
* `new Date(s)` is modelled for ISO `YYYY-MM-DD` strings (the only format the
  repository's data and date inputs produce): it yields the UTC-midnight
  timestamp in milliseconds, or `none` (Invalid Date) otherwise.  The local
  timezone is taken to be UTC, so `setHours(23, 59, 59, 999)` maps a
  timestamp to the last millisecond of its calendar day.
* `toLowerCase`/`localeCompare`/`String(x)` are modelled per-character with
  `Char.toLower`, code-point order, and the standard JS stringifications; the
  repository only ever feeds them ASCII data.
-/

namespace DynFilter

/-- A JavaScript runtime value as reachable by the filter engine. -/
inductive Value where
  | vNull
  | vStr (s : String)
  | vNum (n : Rat)
  | vBool (b : Bool)
  | vArr (elems : List String)
  | vObj (fields : List (String × Value))

/-- `RangeValue` from `types/index.ts`: `{ min, max }`, each
`string | number | null` (`none` = null, `Sum.inl` = string, `Sum.inr` = number). -/
structure RangeValue where
  min : Option (Sum String Rat)
  max : Option (Sum String Rat)
deriving DecidableEq

/-- `DateRangeValue` from `types/index.ts`: `{ startDate, endDate }`, each
`string | null`. -/
structure DateRangeValue where
  startDate : Option String
  endDate : Option String
deriving DecidableEq

/-- `FilterValue` from `types/index.ts`:
`string | number | boolean | string[] | RangeValue | DateRangeValue | null`. -/
inductive FilterValue where
  | fStr (s : String)
  | fNum (n : Rat)
  | fBool (b : Bool)
  | fArr (elems : List String)
  | fRange (r : RangeValue)
  | fDateRange (r : DateRangeValue)
  | fNull
deriving DecidableEq

/-- `FilterOperator` from `types/index.ts`.  The JS string `'in'` is a Lean
keyword, so it is spelled `inOp` here. -/
inductive FilterOperator where
  | equals
  | contains
  | startsWith
  | endsWith
  | doesNotContain
  | greaterThan
  | lessThan
  | greaterThanOrEqual
  | lessThanOrEqual
  | between
  | is
  | isNot
  | inOp
  | notIn
deriving DecidableEq

/-- `FilterCondition` from `types/index.ts`. -/
structure FilterCondition where
  id : String
  field : String
  operator : FilterOperator
  value : FilterValue

/-- Direction component of `SortConfig`. -/
inductive SortDirection where
  | asc
  | desc
deriving DecidableEq

/-! ### Models of the JS built-ins used by the source -/

/-- JS `String.prototype.toLowerCase`, per character. -/
def strToLower (s : String) : String :=
  String.mk (s.toList.map Char.toLower)

/-- JS `String.prototype.includes` (substring test). -/
def strIncludes (s t : String) : Bool :=
  (List.range (s.toList.length + 1)).any (fun i => t.toList.isPrefixOf (s.toList.drop i))

/-- JS `String.prototype.startsWith`. -/
def strStartsWith (s t : String) : Bool :=
  t.toList.isPrefixOf s.toList

/-- JS `String.prototype.endsWith`. -/
def strEndsWith (s t : String) : Bool :=
  t.toList.isSuffixOf s.toList

/-- Truthiness of a nullable JS string: `null` and `''` are falsy. -/
def strFalsy : Option String → Bool
  | none => true
  | some s => s == ""

/-- Decimal digit run to a natural number. -/
def digitsToNat (cs : List Char) : Nat :=
  cs.foldl (fun n c => n * 10 + (c.toNat - 48)) 0

/-- JS `parseFloat`, restricted to plain decimal literals: optional sign,
longest digit run, optional fraction after a dot; `none` models `NaN`
(no leading digits at all). -/
def parseFloat (s : String) : Option Rat :=
  let signSplit : Bool × List Char :=
    match s.toList with
    | c :: rest =>
        if c = '-' then (true, rest)
        else if c = '+' then (false, rest)
        else (false, c :: rest)
    | [] => (false, [])
  let neg := signSplit.1
  let intPart := signSplit.2.takeWhile Char.isDigit
  let afterInt := signSplit.2.dropWhile Char.isDigit
  let fracPart :=
    match afterInt with
    | c :: r => if c = '.' then r.takeWhile Char.isDigit else []
    | [] => []
  if intPart.isEmpty && fracPart.isEmpty then none
  else
    let q := mkRat (digitsToNat intPart * 10 ^ fracPart.length + digitsToNat fracPart) (10 ^ fracPart.length)
    some (if neg then -q else q)

/-- True leap years of the proleptic Gregorian calendar (as JS `Date` uses). -/
def isLeap (y : Int) : Bool :=
  (y % 4 == 0 && !(y % 100 == 0)) || y % 400 == 0

/-- Number of days of month `m` of year `y`. -/
def daysInMonth (y m : Int) : Int :=
  if m = 2 then (if isLeap y then 29 else 28)
  else if m = 4 ∨ m = 6 ∨ m = 9 ∨ m = 11 then 30
  else 31

/-- Days between 1970-01-01 and `y-m-d` in the proleptic Gregorian calendar
(civil-from-days inverse, standard era decomposition). -/
def daysFromCivil (y m d : Int) : Int :=
  let yy := if m ≤ 2 then y - 1 else y
  let era := (if 0 ≤ yy then yy else yy - 399) / 400
  let yoe := yy - era * 400
  let mp := (m + 9) % 12
  let doy := (153 * mp + 2) / 5 + d - 1
  let doe := yoe * 365 + yoe / 4 - yoe / 100 + doy
  era * 146097 + doe - 719468

/-- JS `new Date(s).getTime()` for ISO `YYYY-MM-DD` strings: milliseconds of
the UTC midnight of that day; `none` models an Invalid Date (`NaN` time). -/
def jsDate (s : String) : Option Int :=
  match s.toList with
  | [y1, y2, y3, y4, h1, m1, m2, h2, d1, d2] =>
      if h1 = '-' ∧ h2 = '-' ∧ [y1, y2, y3, y4, m1, m2, d1, d2].all Char.isDigit then
        let y : Int := (digitsToNat [y1, y2, y3, y4] : Nat)
        let m : Int := (digitsToNat [m1, m2] : Nat)
        let d : Int := (digitsToNat [d1, d2] : Nat)
        if 1 ≤ m ∧ m ≤ 12 ∧ 1 ≤ d ∧ d ≤ daysInMonth y m then
          some (daysFromCivil y m d * 86400000)
        else none
      else none
  | _ => none

/-- JS `<` between two possibly-`NaN` dates: any comparison with `NaN` is
false. -/
def jsLt : Option Int → Option Int → Bool
  | some a, some b => decide (a < b)
  | _, _ => false

/-- JS `>` between two possibly-`NaN` dates: any comparison with `NaN` is
false. -/
def jsGt : Option Int → Option Int → Bool
  | some a, some b => decide (b < a)
  | _, _ => false

/-- `date.setHours(23, 59, 59, 999)` with the local timezone taken as UTC:
the last millisecond of the timestamp's calendar day. -/
def endOfDay (t : Int) : Int :=
  t - t % 86400000 + 86399999

/-! ### Path Resolver (`getNestedValue`) -/

/-- `path.split('.')` on the character list. -/
def splitOnDot : List Char → List (List Char)
  | [] => [[]]
  | c :: rest =>
      if c = '.' then [] :: splitOnDot rest
      else
        match splitOnDot rest with
        | [] => [[c]]
        | g :: gs => (c :: g) :: gs

/-- `path.split('.')`. -/
def splitPath (p : String) : List String :=
  (splitOnDot p.toList).map (fun cs => String.mk cs)

/-- First binding of `key` in an object's field list (JS objects cannot hold
duplicate keys, so the data always has at most one). -/
def lookupKey : List (String × Value) → String → Option Value
  | [], _ => none
  | (k, v) :: rest, key => if k = key then some v else lookupKey rest key

/-- Canonical array-index string: digits without a leading zero (except "0"),
as required for `key in array` to hit an element. -/
def isCanonicalIndex (cs : List Char) : Bool :=
  match cs with
  | [] => false
  | [c] => c.isDigit
  | c :: rest => c.isDigit && !(c = '0' : Bool) && rest.all Char.isDigit

/-- One step of the resolver: `current && typeof current === 'object' &&
key in current ? current[key] : undefined`.  Objects expose their fields;
arrays expose `length` and their canonical indices; every other value
(including `null`, which is falsy) yields `undefined`. -/
def stepKey (cur : Value) (key : String) : Option Value :=
  match cur with
  | Value.vObj fields => lookupKey fields key
  | Value.vArr elems =>
      if key = "length" then some (Value.vNum (elems.length : Rat))
      else if isCanonicalIndex key.toList then
        match elems[digitsToNat key.toList]? with
        | some s => some (Value.vStr s)
        | none => none
      else none
  | _ => none

/-- `getNestedValue` (filterUtils.ts, lines 13-20): dot-path resolution by a
`reduce` over the path segments; `none` models `undefined` (absent). -/
def getNestedValue (obj : Value) (path : String) : Option Value :=
  (splitPath path).foldl
    (fun cur key =>
      match cur with
      | some v => stepKey v key
      | none => none)
    (some obj)

/-! ### Per-shape filter functions (filterUtils.ts, lines 25-161) -/

/-- `filterText` (lines 25-43): case-insensitive text operators; any other
operator falls to the permissive default. -/
def filterText (value filterValue : String) (operator : FilterOperator) : Bool :=
  let lowerValue := strToLower value
  let lowerFilter := strToLower filterValue
  match operator with
  | FilterOperator.equals => lowerValue == lowerFilter
  | FilterOperator.contains => strIncludes lowerValue lowerFilter
  | FilterOperator.startsWith => strStartsWith lowerValue lowerFilter
  | FilterOperator.endsWith => strEndsWith lowerValue lowerFilter
  | FilterOperator.doesNotContain => !strIncludes lowerValue lowerFilter
  | _ => true

/-- `filterNumber` (lines 48-63). -/
def filterNumber (value filterValue : Rat) (operator : FilterOperator) : Bool :=
  match operator with
  | FilterOperator.equals => value == filterValue
  | FilterOperator.greaterThan => decide (filterValue < value)
  | FilterOperator.lessThan => decide (value < filterValue)
  | FilterOperator.greaterThanOrEqual => decide (filterValue ≤ value)
  | FilterOperator.lessThanOrEqual => decide (value ≤ filterValue)
  | _ => true

/-- `filterDateRange` (lines 68-90): both bounds falsy means no filtering; a
start bound excludes dates before it; an end bound is pushed to the end of its
calendar day and excludes dates after it.  Comparisons against an Invalid
Date are false, exactly as `NaN` comparisons are in JS. -/
def filterDateRange (value : String) (filterValue : DateRangeValue) : Bool :=
  let date := jsDate value
  if strFalsy filterValue.startDate && strFalsy filterValue.endDate then true
  else if !strFalsy filterValue.startDate && jsLt date (jsDate (filterValue.startDate.getD "")) then false
  else if !strFalsy filterValue.endDate && jsGt date ((jsDate (filterValue.endDate.getD "")).map endOfDay) then false
  else true

/-- The `min` check of `filterAmountRange` (lines 103-106): a bound that is
null or the empty string is skipped; a string bound is `parseFloat`-ed and
skipped when `NaN`; an enforced bound fails values strictly below it. -/
def lowBoundViolated (b : Option (Sum String Rat)) (value : Rat) : Bool :=
  match b with
  | none => false
  | some (Sum.inl s) =>
      if s = "" then false
      else
        match parseFloat s with
        | none => false
        | some m => decide (value < m)
  | some (Sum.inr m) => decide (value < m)

/-- The `max` check of `filterAmountRange` (lines 109-112), symmetric to
`lowBoundViolated`. -/
def highBoundViolated (b : Option (Sum String Rat)) (value : Rat) : Bool :=
  match b with
  | none => false
  | some (Sum.inl s) =>
      if s = "" then false
      else
        match parseFloat s with
        | none => false
        | some m => decide (m < value)
  | some (Sum.inr m) => decide (m < value)

/-- `filterAmountRange` (lines 95-115). -/
def filterAmountRange (value : Rat) (filterValue : RangeValue) : Bool :=
  if filterValue.min = none ∧ filterValue.max = none then true
  else if filterValue.min = some (Sum.inl "") ∧ filterValue.max = some (Sum.inl "") then true
  else if lowBoundViolated filterValue.min value then false
  else if highBoundViolated filterValue.max value then false
  else true

/-- `filterSingleSelect` (lines 120-132). -/
def filterSingleSelect (value filterValue : String) (operator : FilterOperator) : Bool :=
  let lowerValue := strToLower value
  let lowerFilter := strToLower filterValue
  match operator with
  | FilterOperator.is => lowerValue == lowerFilter
  | FilterOperator.isNot => !(lowerValue == lowerFilter)
  | _ => true

/-- `filterMultiSelect` (lines 137-154): an empty selection never filters;
`in` keeps records sharing at least one (lowercased) value with the
selection, `notIn` keeps records sharing none.  The JS null-guard on the
selection cannot fire here because the selection is a real list. -/
def filterMultiSelect (value : List String) (filterValues : List String) (operator : FilterOperator) : Bool :=
  if filterValues.isEmpty then true
  else
    let lowerValues := value.map strToLower
    let lowerFilters := filterValues.map strToLower
    match operator with
    | FilterOperator.inOp => lowerFilters.any (fun f => lowerValues.contains f)
    | FilterOperator.notIn => !lowerFilters.any (fun f => lowerValues.contains f)
    | _ => true

/-- `filterBoolean` (lines 159-161). -/
def filterBoolean (value filterValue : Bool) : Bool :=
  value == filterValue

/-- Presence of one `RangeValue` bound as tested by `hasValidFilterValue`:
`bound !== null && bound !== ''` (a numeric bound is never `=== ''`). -/
def boundPresent : Option (Sum String Rat) → Bool
  | none => false
  | some (Sum.inl s) => !(s == "")
  | some (Sum.inr _) => true

/-- `hasValidFilterValue` (lines 166-198), in the source's check order:
null/undefined, then `value === ''`, then the `between` branch (which demands
a date-range or range object and otherwise reports invalid), then arrays,
then the permissive default. -/
def hasValidFilterValue (filter : FilterCondition) : Bool :=
  match filter.value with
  | FilterValue.fNull => false
  | v =>
      if v = FilterValue.fStr "" then false
      else if filter.operator = FilterOperator.between then
        match v with
        | FilterValue.fDateRange dr => !strFalsy dr.startDate || !strFalsy dr.endDate
        | FilterValue.fRange r => boundPresent r.min || boundPresent r.max
        | _ => false
      else
        match v with
        | FilterValue.fArr elems => decide (0 < elems.length)
        | _ => true

/-- `applyFilter` (lines 203-254): resolve the field, reject null/undefined,
then dispatch on the joint runtime shape of the resolved value and the
condition value; unmatched combinations fall open to `true`.  Each arm of
the source's `if` cascade lands in exactly one arm of this match. -/
def applyFilter (record : Value) (filter : FilterCondition) : Bool :=
  match getNestedValue record filter.field with
  | none => false
  | some Value.vNull => false
  | some (Value.vStr s) =>
      match filter.value with
      | FilterValue.fStr fv =>
          if filter.operator = FilterOperator.is ∨ filter.operator = FilterOperator.isNot then
            filterSingleSelect s fv filter.operator
          else filterText s fv filter.operator
      | FilterValue.fDateRange dr =>
          if filter.operator = FilterOperator.between then filterDateRange s dr else true
      | _ => true
  | some (Value.vNum n) =>
      match filter.value with
      | FilterValue.fNum fv => filterNumber n fv filter.operator
      | FilterValue.fRange r =>
          if filter.operator = FilterOperator.between then filterAmountRange n r else true
      | _ => true
  | some (Value.vArr elems) =>
      match filter.value with
      | FilterValue.fArr fv => filterMultiSelect elems fv filter.operator
      | _ => true
  | some (Value.vBool b) =>
      match filter.value with
      | FilterValue.fBool fv => filterBoolean b fv
      | _ => true
  | some (Value.vObj _) => true

/-! ### Filter Engine (`applyFilters`, lines 260-289) -/

/-- The conditions surviving the validity filter (line 265). -/
def validConditions (filters : List FilterCondition) : List FilterCondition :=
  filters.filter hasValidFilterValue

/-- The distinct field keys of the valid conditions: the key set of the
`filtersByField` grouping object (lines 273-279).  Key order is irrelevant
downstream (the keys are consumed by `every`). -/
def groupKeys (filters : List FilterCondition) : List String :=
  ((validConditions filters).map (fun f => f.field)).dedup

/-- The group of valid conditions sharing field key `k`: one entry of
`filtersByField` (lines 273-279), in original relative order. -/
def fieldGroup (filters : List FilterCondition) (k : String) : List FilterCondition :=
  (validConditions filters).filter (fun f => f.field == k)

/-- `applyFilters` (lines 260-289): drop invalid conditions; with none left,
return the data unchanged; otherwise keep the records for which every field
group contains at least one passing condition. -/
def applyFilters (data : List Value) (filters : List FilterCondition) : List Value :=
  if (validConditions filters).isEmpty then data
  else
    data.filter (fun record =>
      (groupKeys filters).all (fun k =>
        (fieldGroup filters k).any (fun filter => applyFilter record filter)))

/-! ### Sort comparator (DataTable `sortedData`, lines 437-462) -/

/-- JS `String(x)` for the modelled values (arrays join with commas, objects
print as `[object Object]`); number printing is only reachable through the
comparator's mixed-type fallback, which no record pair of equal sort key type
exercises. -/
def jsToString : Value → String
  | Value.vNull => "null"
  | Value.vStr s => s
  | Value.vNum q => toString q
  | Value.vBool b => if b then "true" else "false"
  | Value.vArr elems => String.intercalate "," elems
  | Value.vObj _ => "[object Object]"

/-- Code-point string comparison standing in for `localeCompare` (the data is
ASCII): negative, zero or positive as in JS. -/
def charListCompare : List Char → List Char → Int
  | [], [] => 0
  | [], _ :: _ => -1
  | _ :: _, [] => 1
  | x :: xs, y :: ys =>
      if x.toNat < y.toNat then -1
      else if y.toNat < x.toNat then 1
      else charListCompare xs ys

/-- String comparison used by the comparator model. -/
def strCompare (a b : String) : Int :=
  charListCompare a.toList b.toList

/-- The type-dispatched comparison of two present, non-null sort values
(lines 449-458). -/
def compareValues (av bv : Value) : Rat :=
  match av, bv with
  | Value.vStr x, Value.vStr y => (strCompare x y : Int)
  | Value.vNum x, Value.vNum y => x - y
  | Value.vBool x, Value.vBool y => if x == y then 0 else if x then -1 else 1
  | x, y => (strCompare (jsToString x) (jsToString y) : Int)

/-- The comparator passed to `sort` in `sortedData` (lines 440-461): the
null/undefined checks return `1` and `-1` before the direction is applied;
otherwise the type-dispatched comparison is negated for descending order. -/
def sortCompare (key : String) (direction : SortDirection) (a b : Value) : Rat :=
  match getNestedValue a key, getNestedValue b key with
  | none, _ => 1
  | some Value.vNull, _ => 1
  | _, none => -1
  | _, some Value.vNull => -1
  | some av, some bv =>
      let comparison := compareValues av bv
      match direction with
      | SortDirection.asc => comparison
      | SortDirection.desc => -comparison

/-- A record is nullish at a sort key when the resolver yields `undefined`
(absent) or a stored `null`: exactly the values caught by the comparator's
early checks. -/
def nullishAt (r : Value) (key : String) : Prop :=
  getNestedValue r key = none ∨ getNestedValue r key = some Value.vNull

/-! ### Specification-side definitions used to state the claims -/

/-- The operator-sensitive validity rule actually implemented by
`hasValidFilterValue`, stated as the amended claim C3 reads: under `between`
a condition is valid exactly when its value is a date range with a truthy
bound or a min/max range with a bound that is neither null nor the empty
string; under every other operator it is valid exactly when its value is
non-null, not the empty string and not an empty sequence. -/
def validitySpec (f : FilterCondition) : Bool :=
  if f.operator = FilterOperator.between then
    match f.value with
    | FilterValue.fDateRange dr => !strFalsy dr.startDate || !strFalsy dr.endDate
    | FilterValue.fRange r => boundPresent r.min || boundPresent r.max
    | _ => false
  else
    match f.value with
    | FilterValue.fNull => false
    | FilterValue.fStr s => !(s == "")
    | FilterValue.fArr elems => !elems.isEmpty
    | _ => true

/-- The six dispatch rules of the evaluator (claim C4): string/string,
number/number, number with `between` and a min/max range, string with
`between` and a date range, sequence/sequence, boolean/boolean. -/
def dispatchMatch (v : Value) (fv : FilterValue) (op : FilterOperator) : Bool :=
  match v, fv with
  | Value.vStr _, FilterValue.fStr _ => true
  | Value.vNum _, FilterValue.fNum _ => true
  | Value.vNum _, FilterValue.fRange _ => decide (op = FilterOperator.between)
  | Value.vStr _, FilterValue.fDateRange _ => decide (op = FilterOperator.between)
  | Value.vArr _, FilterValue.fArr _ => true
  | Value.vBool _, FilterValue.fBool _ => true
  | _, _ => false

/-- The numeric bound a `RangeValue` side actually enforces: none when the
side is null, empty or fails to parse, otherwise the parsed number. -/
def boundNum : Option (Sum String Rat) → Option Rat
  | none => none
  | some (Sum.inl s) => if s = "" then none else parseFloat s
  | some (Sum.inr q) => some q

/-- The timestamp the `startDate` side of a date range enforces as an
inclusive lower bound: none when the side is falsy or unparseable. -/
def dateStartBound (dr : DateRangeValue) : Option Int :=
  if strFalsy dr.startDate then none else jsDate (dr.startDate.getD "")

/-- The timestamp the `endDate` side of a date range enforces as an inclusive
upper bound, pushed to the last millisecond (23:59:59.999) of its calendar
day: none when the side is falsy or unparseable. -/
def dateEndBound (dr : DateRangeValue) : Option Int :=
  if strFalsy dr.endDate then none else (jsDate (dr.endDate.getD "")).map endOfDay

/-! ### Helper lemmas -/

lemma lowBoundViolated_iff (b : Option (Sum String Rat)) (v : Rat) :
    lowBoundViolated b v = true ↔ ∃ m, boundNum b = some m ∧ v < m := by
  rcases b with _ | b
  · simp [lowBoundViolated, boundNum]
  · rcases b with s | q
    · by_cases hs : s = ""
      · simp [lowBoundViolated, boundNum, hs]
      · rcases hp : parseFloat s with _ | m <;> simp [lowBoundViolated, boundNum, hs, hp]
    · simp [lowBoundViolated, boundNum]

lemma highBoundViolated_iff (b : Option (Sum String Rat)) (v : Rat) :
    highBoundViolated b v = true ↔ ∃ m, boundNum b = some m ∧ m < v := by
  rcases b with _ | b
  · simp [highBoundViolated, boundNum]
  · rcases b with s | q
    · by_cases hs : s = ""
      · simp [highBoundViolated, boundNum, hs]
      · rcases hp : parseFloat s with _ | m <;> simp [highBoundViolated, boundNum, hs, hp]
    · simp [highBoundViolated, boundNum]

/-! ### Claims -/

/-- Claim C2: filtering with an empty condition list, or with a list whose
conditions are all invalid, returns the record list unchanged (same elements,
same order). -/
theorem claim_C2_holds (data : List Value) (cs : List FilterCondition) :
    applyFilters data [] = data ∧
      ((∀ f ∈ cs, hasValidFilterValue f = false) → applyFilters data cs = data) := by
  constructor
  · rfl
  · intro h
    have hnil : validConditions cs = [] := by
      rw [validConditions, List.filter_eq_nil_iff]
      intro f hf
      simp [h f hf]
    simp [applyFilters, hnil]

/-- Witness for C2: one record survives a single invalid (null-valued)
condition unchanged. -/
theorem claim_C2_witness :
    applyFilters [Value.vObj [("age", Value.vNum 3)]]
        [FilterCondition.mk "w2" "age" FilterOperator.equals FilterValue.fNull] =
      [Value.vObj [("age", Value.vNum 3)]] :=
  (claim_C2_holds _ _).2 (by decide)

/-- Claim C5: a condition whose field path does not resolve evaluates to
false, for every operator and condition value. -/
theorem claim_C5_holds (record : Value) (cond : FilterCondition)
    (h : getNestedValue record cond.field = none) :
    applyFilter record cond = false := by
  simp [applyFilter, h]

/-- Witness for C5: a missing key fails the condition. -/
theorem claim_C5_witness :
    applyFilter (Value.vObj [("name", Value.vStr "Ann")])
      (FilterCondition.mk "w5" "missing" FilterOperator.equals (FilterValue.fStr "x")) = false :=
  claim_C5_holds _ _ rfl

/-- Claim C10: a field path that resolves to a stored null evaluates to
false, exactly like an absent path, never to the fail-open default. -/
theorem claim_C10_holds (record : Value) (cond : FilterCondition)
    (h : getNestedValue record cond.field = some Value.vNull) :
    applyFilter record cond = false := by
  simp [applyFilter, h]

/-- Witness for C10: a null field value fails the condition. -/
theorem claim_C10_witness :
    applyFilter (Value.vObj [("dept", Value.vNull)])
      (FilterCondition.mk "w10" "dept" FilterOperator.contains (FilterValue.fStr "x")) = false :=
  claim_C10_holds _ _ rfl

/-- Counterexample to C3 as stated: a `between` condition holding a non-empty
plain string (none of the claimed invalid shapes) is nevertheless discarded,
and a non-`between` condition holding a range with both bounds null is
nevertheless kept, so validity is not operator-independent. -/
theorem claim_C3_counterexample :
    hasValidFilterValue (FilterCondition.mk "c3a" "salary" FilterOperator.between (FilterValue.fStr "high")) = false ∧
    hasValidFilterValue (FilterCondition.mk "c3b" "name" FilterOperator.equals (FilterValue.fRange (RangeValue.mk none none))) = true :=
  ⟨rfl, rfl⟩

/-- Claim C3 (amended): the validity filter is operator-sensitive: under
`between` a condition is kept iff its value is a date-range record with a
truthy bound or a min/max range record with a bound that is neither null nor
empty; under every other operator it is kept iff its value is non-null, not
the empty string and not an empty sequence. -/
theorem claim_C3_holds (f : FilterCondition) : hasValidFilterValue f = validitySpec f := by
  rcases f with ⟨i, fd, op, v⟩
  cases v with
  | fStr s =>
      by_cases hs : s = "" <;> by_cases hop : op = FilterOperator.between <;>
        simp [hasValidFilterValue, validitySpec, hs, hop]
  | fNull =>
      by_cases hop : op = FilterOperator.between <;>
        simp [hasValidFilterValue, validitySpec, hop]
  | fNum n =>
      by_cases hop : op = FilterOperator.between <;>
        simp [hasValidFilterValue, validitySpec, hop]
  | fBool b =>
      by_cases hop : op = FilterOperator.between <;>
        simp [hasValidFilterValue, validitySpec, hop]
  | fArr elems =>
      by_cases hop : op = FilterOperator.between <;> cases elems <;>
        simp [hasValidFilterValue, validitySpec, hop]
  | fRange r =>
      by_cases hop : op = FilterOperator.between <;>
        simp [hasValidFilterValue, validitySpec, hop]
  | fDateRange dr =>
      by_cases hop : op = FilterOperator.between <;>
        simp [hasValidFilterValue, validitySpec, hop]

/-- Claim C1: a record is kept by `applyFilters` iff it belongs to the input
and, for every field group formed from the valid conditions, at least one
condition of that group evaluates true on it (OR within a field group, AND
across field groups). -/
theorem claim_C1_holds (data : List Value) (filters : List FilterCondition) (r : Value) :
    r ∈ applyFilters data filters ↔
      r ∈ data ∧ ∀ k ∈ groupKeys filters, ∃ f ∈ fieldGroup filters k, applyFilter r f = true := by
  unfold applyFilters
  by_cases h : (validConditions filters).isEmpty = true
  · have hnil : validConditions filters = [] := by simpa [List.isEmpty_iff] using h
    simp [h, groupKeys, hnil]
  · simp [h, List.mem_filter, List.all_eq_true, List.any_eq_true]

/-- Counterexample to C4 as stated: the path resolves to a present value (a
stored null), the shape triple (null, string, equals) matches none of the six
dispatch rules, yet the evaluator returns false, not the fail-open true. -/
theorem claim_C4_counterexample :
    getNestedValue (Value.vObj [("name", Value.vNull)]) "name" = some Value.vNull ∧
    dispatchMatch Value.vNull (FilterValue.fStr "x") FilterOperator.equals = false ∧
    applyFilter (Value.vObj [("name", Value.vNull)])
      (FilterCondition.mk "c4" "name" FilterOperator.equals (FilterValue.fStr "x")) = false :=
  ⟨rfl, rfl, rfl⟩

/-- Claim C4 (amended): when the field path resolves to a present non-null
value and the (resolved shape, condition value shape, operator) triple
matches none of the evaluator's dispatch rules, the evaluator fails open and
returns true. -/
theorem claim_C4_holds (record : Value) (cond : FilterCondition) (v : Value)
    (h1 : getNestedValue record cond.field = some v) (h2 : v ≠ Value.vNull)
    (h3 : dispatchMatch v cond.value cond.operator = false) :
    applyFilter record cond = true := by
  cases v <;> rcases hv : cond.value <;>
    simp_all [applyFilter, dispatchMatch]

/-- Witness for C4: a numeric field against a string-valued `contains`
condition matches no rule and passes. -/
theorem claim_C4_witness :
    applyFilter (Value.vObj [("projects", Value.vNum 3)])
      (FilterCondition.mk "w4" "projects" FilterOperator.contains (FilterValue.fStr "x")) = true :=
  claim_C4_holds _ _ (Value.vNum 3) rfl (fun h => Value.noConfusion h) rfl

/-- Claim C6: on a sequence-valued field with a sequence-valued condition, an
empty selection always passes; a non-empty selection passes `in` iff some
selected value occurs (case-insensitively) in the record's sequence, and
passes `notIn` iff none does. -/
theorem claim_C6_holds (record : Value) (cond : FilterCondition) (xs fs : List String)
    (h1 : getNestedValue record cond.field = some (Value.vArr xs))
    (h2 : cond.value = FilterValue.fArr fs) :
    (fs = [] → applyFilter record cond = true) ∧
    (fs ≠ [] → cond.operator = FilterOperator.inOp →
      (applyFilter record cond = true ↔ ∃ f ∈ fs, strToLower f ∈ xs.map strToLower)) ∧
    (fs ≠ [] → cond.operator = FilterOperator.notIn →
      (applyFilter record cond = true ↔ ¬ ∃ f ∈ fs, strToLower f ∈ xs.map strToLower)) := by
  have ha : applyFilter record cond = filterMultiSelect xs fs cond.operator := by
    simp [applyFilter, h1, h2]
  refine ⟨fun hfs => ?_, fun hfs hop => ?_, fun hfs hop => ?_⟩
  · simp [ha, filterMultiSelect, hfs]
  · have hne : fs.isEmpty = false := by simpa [List.isEmpty_iff] using hfs
    simp [ha, filterMultiSelect, hne, hop, List.any_eq_true]
  · have hne : fs.isEmpty = false := by simpa [List.isEmpty_iff] using hfs
    simp [ha, filterMultiSelect, hne, hop, List.any_eq_true]

/-- Witness for C6: skills `[go, rust]` pass `notIn [java]`. -/
theorem claim_C6_witness :
    applyFilter (Value.vObj [("skills", Value.vArr ["go", "rust"])])
      (FilterCondition.mk "w6" "skills" FilterOperator.notIn (FilterValue.fArr ["java"])) = true := by
  have h := claim_C6_holds (Value.vObj [("skills", Value.vArr ["go", "rust"])])
    (FilterCondition.mk "w6" "skills" FilterOperator.notIn (FilterValue.fArr ["java"]))
    ["go", "rust"] ["java"] rfl rfl
  exact (h.2.2 (by simp) rfl).mpr (by decide)

/-- Claim C7: on a numeric field, a `between` condition with a min/max range
passes exactly when the value respects every enforced bound inclusively; a
bound that is null, empty or unparseable enforces nothing, and a range with
no enforced bound passes unconditionally. -/
theorem claim_C7_holds (record : Value) (cond : FilterCondition) (q : Rat) (r : RangeValue)
    (h1 : getNestedValue record cond.field = some (Value.vNum q))
    (h2 : cond.operator = FilterOperator.between)
    (h3 : cond.value = FilterValue.fRange r) :
    (applyFilter record cond = true ↔
      (∀ m, boundNum r.min = some m → m ≤ q) ∧ (∀ m, boundNum r.max = some m → q ≤ m)) := by
  have ha : applyFilter record cond = filterAmountRange q r := by
    simp [applyFilter, h1, h2, h3]
  rw [ha]
  unfold filterAmountRange
  split_ifs with h01 h02 hl hh
  · simp [h01.1, h01.2, boundNum]
  · simp [h02.1, h02.2, boundNum]
  · obtain ⟨m, hm, hq⟩ := (lowBoundViolated_iff _ _).mp hl
    simp only [Bool.false_eq_true, false_iff]
    rintro ⟨hlo, _⟩
    exact absurd (hlo m hm) (not_le.mpr hq)
  · obtain ⟨m, hm, hq⟩ := (highBoundViolated_iff _ _).mp hh
    simp only [Bool.false_eq_true, false_iff]
    rintro ⟨_, hhi⟩
    exact absurd (hhi m hm) (not_le.mpr hq)
  · simp only [true_iff]
    constructor
    · intro m hm
      by_contra hlt
      exact hl ((lowBoundViolated_iff _ _).mpr ⟨m, hm, not_le.mp hlt⟩)
    · intro m hm
      by_contra hlt
      exact hh ((highBoundViolated_iff _ _).mpr ⟨m, hm, not_le.mp hlt⟩)

/-- Witness for C7: value 50 against `between {min: "abc", max: 100}` passes;
the malformed min bound is ignored and only the max is enforced. -/
theorem claim_C7_witness :
    applyFilter (Value.vObj [("salary", Value.vNum 50)])
      (FilterCondition.mk "w7" "salary" FilterOperator.between
        (FilterValue.fRange (RangeValue.mk (some (Sum.inl "abc")) (some (Sum.inr 100))))) = true := by
  have h := claim_C7_holds (Value.vObj [("salary", Value.vNum 50)])
    (FilterCondition.mk "w7" "salary" FilterOperator.between
      (FilterValue.fRange (RangeValue.mk (some (Sum.inl "abc")) (some (Sum.inr 100)))))
    50 (RangeValue.mk (some (Sum.inl "abc")) (some (Sum.inr 100))) rfl rfl rfl
  refine h.mpr ⟨fun m hm => ?_, fun m hm => ?_⟩
  · rw [show boundNum (some (Sum.inl "abc")) = none from rfl] at hm
    exact Option.noConfusion hm
  · rw [show boundNum (some (Sum.inr (100 : Rat))) = some 100 from rfl] at hm
    rw [← Option.some.inj hm]
    decide

/-- Helper for C8: the start-bound check of `filterDateRange` fires exactly
when an enforced start bound strictly exceeds the record date. -/
lemma startViolated_iff (d : Int) (dr : DateRangeValue) :
    (!strFalsy dr.startDate && jsLt (some d) (jsDate (dr.startDate.getD ""))) = true ↔
      ∃ t, dateStartBound dr = some t ∧ d < t := by
  by_cases hs : strFalsy dr.startDate = true <;>
    rcases hj : jsDate (dr.startDate.getD "") with _ | t <;>
      simp [dateStartBound, hs, hj, jsLt]

/-- Helper for C8: the end-bound check of `filterDateRange` fires exactly
when the record date strictly exceeds an enforced end-of-day bound. -/
lemma endViolated_iff (d : Int) (dr : DateRangeValue) :
    (!strFalsy dr.endDate && jsGt (some d) ((jsDate (dr.endDate.getD "")).map endOfDay)) = true ↔
      ∃ t, dateEndBound dr = some t ∧ t < d := by
  by_cases hs : strFalsy dr.endDate = true <;>
    rcases hj : jsDate (dr.endDate.getD "") with _ | t <;>
      simp [dateEndBound, hs, hj, jsGt]

/-- Helper for C8: `filterDateRange` on a parseable record date passes
exactly when the date respects the enforced start bound and the enforced
end-of-day bound. -/
lemma filterDateRange_iff (s : String) (dr : DateRangeValue) (d : Int) (h4 : jsDate s = some d) :
    filterDateRange s dr = true ↔
      (∀ t, dateStartBound dr = some t → t ≤ d) ∧ (∀ t, dateEndBound dr = some t → d ≤ t) := by
  unfold filterDateRange
  rw [h4]
  by_cases hboth : (strFalsy dr.startDate && strFalsy dr.endDate) = true
  · obtain ⟨hs, he⟩ : strFalsy dr.startDate = true ∧ strFalsy dr.endDate = true := by
      simpa using hboth
    simp [hboth, dateStartBound, dateEndBound, hs, he]
  · rw [if_neg (by simp [hboth])]
    by_cases hV1 : (!strFalsy dr.startDate && jsLt (some d) (jsDate (dr.startDate.getD ""))) = true
    · obtain ⟨t, ht, hd⟩ := (startViolated_iff d dr).mp hV1
      simp only [hV1, if_true, Bool.false_eq_true, false_iff]
      rintro ⟨hlo, _⟩
      exact absurd (hlo t ht) (not_le.mpr hd)
    · rw [if_neg hV1]
      by_cases hV2 : (!strFalsy dr.endDate && jsGt (some d) ((jsDate (dr.endDate.getD "")).map endOfDay)) = true
      · obtain ⟨t, ht, hd⟩ := (endViolated_iff d dr).mp hV2
        simp only [hV2, if_true, Bool.false_eq_true, false_iff]
        rintro ⟨_, hhi⟩
        exact absurd (hhi t ht) (not_le.mpr hd)
      · rw [if_neg hV2]
        simp only [true_iff]
        constructor
        · intro t ht
          by_contra hlt
          exact hV1 ((startViolated_iff d dr).mpr ⟨t, ht, not_le.mp hlt⟩)
        · intro t ht
          by_contra hlt
          exact hV2 ((endViolated_iff d dr).mpr ⟨t, ht, not_le.mp hlt⟩)

/-- Claim C8: on a string field holding a parseable calendar date, a
`between` condition with a date range passes exactly when the date respects
the enforced start bound (date >= start) and the enforced end bound, the end
bound being pushed to the last millisecond (23:59:59.999) of its calendar
day so that the whole end day is inclusive; with both bounds absent it
passes unconditionally. -/
theorem claim_C8_holds (record : Value) (cond : FilterCondition) (s : String) (d : Int)
    (dr : DateRangeValue)
    (h1 : getNestedValue record cond.field = some (Value.vStr s))
    (h2 : cond.operator = FilterOperator.between)
    (h3 : cond.value = FilterValue.fDateRange dr)
    (h4 : jsDate s = some d) :
    (applyFilter record cond = true ↔
      (∀ t, dateStartBound dr = some t → t ≤ d) ∧ (∀ t, dateEndBound dr = some t → d ≤ t)) := by
  have ha : applyFilter record cond = filterDateRange s dr := by
    simp [applyFilter, h1, h2, h3]
  rw [ha]
  exact filterDateRange_iff s dr d h4

/-- Witness for C8: record date 2024-03-15 passes
`between {start: 2024-03-15, end: 2024-03-15}` (same-day inclusive on both
ends). -/
theorem claim_C8_witness :
    applyFilter (Value.vObj [("joinDate", Value.vStr "2024-03-15")])
      (FilterCondition.mk "w8" "joinDate" FilterOperator.between
        (FilterValue.fDateRange (DateRangeValue.mk (some "2024-03-15") (some "2024-03-15")))) = true := by
  have h := claim_C8_holds (Value.vObj [("joinDate", Value.vStr "2024-03-15")])
    (FilterCondition.mk "w8" "joinDate" FilterOperator.between
      (FilterValue.fDateRange (DateRangeValue.mk (some "2024-03-15") (some "2024-03-15"))))
    "2024-03-15" 1710460800000 (DateRangeValue.mk (some "2024-03-15") (some "2024-03-15"))
    rfl rfl rfl (by decide)
  refine h.mpr ⟨fun t ht => ?_, fun t ht => ?_⟩
  · rw [show dateStartBound (DateRangeValue.mk (some "2024-03-15") (some "2024-03-15")) =
        some 1710460800000 from by decide] at ht
    rw [← Option.some.inj ht]
  · rw [show dateEndBound (DateRangeValue.mk (some "2024-03-15") (some "2024-03-15")) =
        some 1710547199999 from by decide] at ht
    rw [← Option.some.inj ht]
    decide

/-- Counterexample to C9 as stated: two records both absent at the sort key
do not compare as equal: the comparator returns 1 (first argument ordered
after the second), not 0. -/
theorem claim_C9_counterexample :
    getNestedValue (Value.vObj []) "k" = none ∧
    sortCompare "k" SortDirection.asc (Value.vObj []) (Value.vObj []) = 1 ∧
    sortCompare "k" SortDirection.desc (Value.vObj []) (Value.vObj []) ≠ 0 := by
  refine ⟨rfl, rfl, ?_⟩
  decide

/-- Claim C9 (amended): in both directions, a record whose sort key is absent
or null compares as 1 (after) against every other record — including another
absent record, which therefore compares as 1 rather than as equal — and a
record with a present non-null value compares as -1 (before) against an
absent one; so absent sorts last, but absent pairs are not reported equal. -/
theorem claim_C9_holds (key : String) (dir : SortDirection) (a b : Value) :
    (nullishAt a key → sortCompare key dir a b = 1) ∧
    (¬ nullishAt a key → nullishAt b key → sortCompare key dir a b = -1) := by
  constructor
  · rintro (h | h) <;> simp [sortCompare, h]
  · intro ha hb
    rcases hga : getNestedValue a key with _ | av
    · exact absurd (Or.inl hga) ha
    · cases av
      case vNull => exact absurd (Or.inr hga) ha
      all_goals rcases hb with hb | hb <;> simp [sortCompare, hga, hb]

/-- Witness for C9: an absent key sorts after a present numeric key in
ascending order, and before it as the second argument in descending order. -/
theorem claim_C9_witness :
    sortCompare "k" SortDirection.asc (Value.vObj []) (Value.vObj [("k", Value.vNum 1)]) = 1 ∧
    sortCompare "k" SortDirection.desc (Value.vObj [("k", Value.vNum 1)]) (Value.vObj []) = -1 := by
  constructor
  · exact (claim_C9_holds "k" SortDirection.asc _ _).1 (Or.inl rfl)
  · refine (claim_C9_holds "k" SortDirection.desc _ _).2 ?_ (Or.inl rfl)
    intro h
    have e : getNestedValue (Value.vObj [("k", Value.vNum 1)]) "k" = some (Value.vNum 1) := rfl
    rcases h with h | h <;> rw [e] at h <;> simp at h

end DynFilter
